import Mathlib

/-!
Verification development for the quantized inference engine in
`ml_model/badgyal_local/model.py`.

The source is a PyTorch module; all tensor operations there act elementwise
or as explicit sums (convolution, linear layers, pooling), batch-parallel in
the leading dimension.  We embed the per-sample computation shallowly:

* tensor values are rationals (`ℚ`), the exact idealization of the Python
  floats; a `(channel, row, col)` feature map is a function `ℤ → ℤ → ℤ → ℚ`
  (spatial positions outside the valid range are masked to zero exactly where
  the source's zero padding does so);
* `torch.trunc` / `torch.round` become `ttrunc` / `rround` below
  (`torch.round` rounds halves to even);
* the two transcendental primitives applied by the source
  (`torch.sigmoid`, `torch.sqrt`) are threaded through the pipeline as
  explicit function parameters `sigmoidf`, `sqrtf`, so every pipeline
  definition stays computable; the claims about the fused batch norm's
  square-root formula are additionally settled against a real-valued
  embedding `cursed_batchnorm` / `bnCoeff` that uses `Real.sqrt` itself.
-/

/-- `QUANTIZE_FACTOR = 1024 ** 2` from model.py (the scale `Q`). -/
def QUANTIZE_FACTOR : ℚ := 1024 ^ 2

/-- `SIGMOID_PIECEWISE_BOUND = 2` from model.py. -/
def SIGMOID_PIECEWISE_BOUND : ℚ := 2

/-- `torch.trunc` on an exact rational value: drop the fractional part,
rounding toward zero (`⌈q⌉` for negative `q`, `⌊q⌋` otherwise). -/
def ttrunc (q : ℚ) : ℚ := if q < 0 then (⌈q⌉ : ℤ) else (⌊q⌋ : ℤ)

/-- `torch.round` on an exact rational value: round half to even. -/
def rround (q : ℚ) : ℚ :=
  if q - ⌊q⌋ < 1 / 2 then (⌊q⌋ : ℤ)
  else if (1 : ℚ) / 2 < q - ⌊q⌋ then (⌊q⌋ + 1 : ℤ)
  else if 2 ∣ ⌊q⌋ then (⌊q⌋ : ℤ) else (⌊q⌋ + 1 : ℤ)

/-- `nn.ReLU` on a single value. -/
def relu (q : ℚ) : ℚ := max q 0

/-- The pipeline's rescale-down primitive: the pattern
`torch.trunc(x / by)` used at every quantized layer boundary
(e.g. `ConvBlock.forward`: `x = torch.trunc(x / QUANTIZE_FACTOR)`). -/
def rescale_down (x bY : ℚ) : ℚ := ttrunc (x / bY)

theorem ttrunc_intCast (n : ℤ) : ttrunc (n : ℚ) = n := by
  simp [ttrunc]

theorem rround_intCast (n : ℤ) : rround (n : ℚ) = n := by
  simp [rround]

theorem rround_isInt (q : ℚ) : ∃ n : ℤ, rround q = (n : ℚ) := by
  unfold rround
  split
  · exact ⟨⌊q⌋, rfl⟩
  · split
    · exact ⟨⌊q⌋ + 1, rfl⟩
    · split
      · exact ⟨⌊q⌋, rfl⟩
      · exact ⟨⌊q⌋ + 1, rfl⟩

/-! ### Real-valued embedding of the fused batch norm

`cursed_batchnorm` (model.py lines 55-74) computes its per-channel
coefficient with `torch.sqrt`; to settle claims about that square root we
embed the function over `ℝ` with `Real.sqrt` (necessarily noncomputable). -/

/-- `torch.trunc` over `ℝ`. -/
noncomputable def truncR (x : ℝ) : ℝ := if x < 0 then (⌈x⌉ : ℤ) else (⌊x⌋ : ℤ)

/-- `torch.round` over `ℝ` (round half to even). -/
noncomputable def rroundR (x : ℝ) : ℝ :=
  if x - ⌊x⌋ < 1 / 2 then (⌊x⌋ : ℤ)
  else if (1 : ℝ) / 2 < x - ⌊x⌋ then (⌊x⌋ + 1 : ℤ)
  else if 2 ∣ ⌊x⌋ then (⌊x⌋ : ℤ) else (⌊x⌋ + 1 : ℤ)

theorem truncR_intCast (n : ℤ) : truncR (n : ℝ) = n := by
  simp [truncR]

theorem rroundR_intCast (n : ℤ) : rroundR (n : ℝ) = n := by
  simp [rroundR]

theorem rroundR_isInt (x : ℝ) : ∃ n : ℤ, rroundR x = (n : ℝ) := by
  unfold rroundR
  split
  · exact ⟨⌊x⌋, rfl⟩
  · split
    · exact ⟨⌊x⌋ + 1, rfl⟩
    · split
      · exact ⟨⌊x⌋, rfl⟩
      · exact ⟨⌊x⌋ + 1, rfl⟩

/-- Per-channel batch-norm statistics of an `nn.BatchNorm2d` module
(weight `gamma`, bias `beta`, `running_mean`, `running_var`), real-valued. -/
structure BatchNormParamsR where
  gamma : ℤ → ℝ
  beta : ℤ → ℝ
  mean : ℤ → ℝ
  var : ℤ → ℝ

/-- model.py line 72:
`coeff = torch.round(gamma * QUANTIZE_FACTOR) / (torch.sqrt(var_x))`,
one scalar per channel. -/
noncomputable def bnCoeff (gamma var : ℝ) : ℝ :=
  rroundR (gamma * (QUANTIZE_FACTOR : ℚ)) / Real.sqrt var

/-- model.py lines 55-74, `cursed_batchnorm`: the per-channel coefficient is
computed once (`coeff`), then broadcast across the spatial positions of each
channel; no epsilon is added under the square root. -/
noncomputable def cursed_batchnorm (bn : BatchNormParamsR) (x : ℤ → ℤ → ℤ → ℝ) :
    ℤ → ℤ → ℤ → ℝ :=
  let coeff : ℤ → ℝ := fun c => bnCoeff (bn.gamma c) (bn.var c)
  fun c i j =>
    truncR ((x c i j - bn.mean c) * coeff c / (QUANTIZE_FACTOR : ℚ)) + bn.beta c

/-! ### Tensors and layer primitives -/

/-- A single sample's `(channel, row, col)` feature map. -/
abbrev Tensor3 := ℤ → ℤ → ℤ → ℚ

/-- A single sample's flat vector (linear-layer activations). -/
abbrev Vec := ℤ → ℚ

/-- Elementwise map over a feature map. -/
def tmap (f : ℚ → ℚ) (x : Tensor3) : Tensor3 := fun c i j => f (x c i j)

/-- Elementwise map over a vector. -/
def vmap (f : ℚ → ℚ) (v : Vec) : Vec := fun i => f (v i)

/-- Zero padding: positions outside the valid `h × w` spatial range read 0. -/
def pad0 (h w : ℕ) (x : Tensor3) : Tensor3 :=
  fun c i j => if 0 ≤ i ∧ i < (h : ℤ) ∧ 0 ≤ j ∧ j < (w : ℤ) then x c i j else 0

/-- Parameters of an `nn.Conv2d` module (weight layout `(out, in, kh, kw)`). -/
structure Conv2dParams where
  weight : ℤ → ℤ → ℤ → ℤ → ℚ
  bias : ℤ → ℚ

/-- `nn.Conv2d` forward: stride-1 cross-correlation with zero padding `pad`,
`cin` input channels, square `k × k` kernels, `h × w` input. -/
def conv2d (cin k : ℕ) (pad : ℤ) (h w : ℕ) (p : Conv2dParams) (x : Tensor3) : Tensor3 :=
  fun co i j =>
    p.bias co +
      ∑ ci ∈ Finset.range cin, ∑ a ∈ Finset.range k, ∑ b ∈ Finset.range k,
        p.weight co ci a b * pad0 h w x ci (i + a - pad) (j + b - pad)

/-- Parameters of an `nn.Linear` module. -/
structure LinearParams where
  weight : ℤ → ℤ → ℚ
  bias : ℤ → ℚ

/-- `nn.Linear` forward with `nin` input features. -/
def linearFwd (nin : ℕ) (p : LinearParams) (v : Vec) : Vec :=
  fun o => p.bias o + ∑ i ∈ Finset.range nin, p.weight o i * v i

/-- `Flatten` (model.py lines 460-466): `x.view(x.size(0), -1)` in
`(channel, row, col)` order. -/
def flattenFwd (h w : ℕ) (x : Tensor3) : Vec :=
  fun idx => x (idx / (h * w : ℤ)) (idx % (h * w : ℤ) / (w : ℤ)) (idx % (w : ℤ))

/-! ### The quantized primitives of model.py -/

/-- model.py lines 20-28, `near_zero_sigmoid_approx`:
`math.floor(quantize_factor * 0.5) + torch.trunc(x / 4)`
(the cubic and quintic terms are commented out in the source). -/
def near_zero_sigmoid_approx (quantize_factor : ℚ) (x : ℚ) : ℚ :=
  (⌊quantize_factor * (1 / 2)⌋ : ℤ) + ttrunc (x / 4)

/-- model.py lines 31-52, `cursed_sigmoid`, elementwise.  `sigmoidf` is the
floating-point logistic primitive `torch.sigmoid`.  The function builds the
piecewise saturation tensors `upper` and `middle` exactly as the source does,
then (like the source) returns
`(x / QUANTIZE_FACTOR).round().sigmoid() * QUANTIZE_FACTOR`, which mentions
neither; note the returned expression uses the module constant
`QUANTIZE_FACTOR`, not the `quantize_factor` argument. -/
def cursed_sigmoid (sigmoidf : ℚ → ℚ) (quantize_factor : ℚ) (x : ℚ) : ℚ :=
  let piecewise_bound := SIGMOID_PIECEWISE_BOUND * quantize_factor
  let upper := if x < piecewise_bound then 0
    else if piecewise_bound < x then quantize_factor else x
  let middle := if x < -1 * piecewise_bound then 0
    else if piecewise_bound < x then 0 else x
  let middle := near_zero_sigmoid_approx QUANTIZE_FACTOR middle
  sigmoidf (rround (x / QUANTIZE_FACTOR)) * QUANTIZE_FACTOR

/-- Per-channel batch-norm statistics of an `nn.BatchNorm2d` module,
rational-valued (pipeline version). -/
structure BatchNormParams where
  gamma : ℤ → ℚ
  beta : ℤ → ℚ
  mean : ℤ → ℚ
  var : ℤ → ℚ

/-- model.py lines 55-74, `cursed_batchnorm`, with the square-root primitive
`torch.sqrt` abstracted as `sqrtf` so the pipeline stays computable
(see `cursed_batchnorm` above for the `Real.sqrt` version). -/
def cursed_batchnormQ (sqrtf : ℚ → ℚ) (bn : BatchNormParams) (x : Tensor3) : Tensor3 :=
  let coeff : ℤ → ℚ := fun c => rround (bn.gamma c * QUANTIZE_FACTOR) / sqrtf (bn.var c)
  fun c i j => ttrunc ((x c i j - bn.mean c) * coeff c / QUANTIZE_FACTOR) + bn.beta c

/-- `nn.BatchNorm2d.eps` default. -/
def BN_EPS : ℚ := 1 / 100000

/-- Standard `nn.BatchNorm2d` forward in eval mode (the unquantized path):
`(x - running_mean) / sqrt(running_var + eps) * gamma + beta`. -/
def batchnorm2d (sqrtf : ℚ → ℚ) (bn : BatchNormParams) (x : Tensor3) : Tensor3 :=
  fun c i j => (x c i j - bn.mean c) / sqrtf (bn.var c + BN_EPS) * bn.gamma c + bn.beta c

/-! ### The layer pipeline -/

/-- Parameters of a `ConvBlock` (conv with default bias, then batch norm). -/
structure ConvBlockParams where
  conv : Conv2dParams
  bn : BatchNormParams

/-- model.py lines 390-409, `ConvBlock.forward`: conv, then (quantized)
truncate-divide by `Q` and `cursed_batchnorm` — or plain batch norm when
quantization is off — then ReLU. -/
def ConvBlock.forward (qn : Bool) (sqrtf : ℚ → ℚ) (cin k : ℕ) (pad : ℤ) (h w : ℕ)
    (p : ConvBlockParams) (x : Tensor3) : Tensor3 :=
  let x := conv2d cin k pad h w p.conv x
  let x := if qn then tmap (fun v => rescale_down v QUANTIZE_FACTOR) x else x
  let x := if qn then cursed_batchnormQ sqrtf p.bn x else batchnorm2d sqrtf p.bn x
  tmap relu x

/-- Parameters of a `SqueezeExcitation` block (two linear layers). -/
structure SEParams where
  lin1 : LinearParams
  lin2 : LinearParams

/-- model.py lines 412-457, `SqueezeExcitation.forward` with `c` channels,
`cmid = channels // ratio` hidden features and `h × w` spatial input. -/
def SqueezeExcitation.forward (qn : Bool) (sigmoidf : ℚ → ℚ) (c cmid h w : ℕ)
    (p : SEParams) (x : Tensor3) : Tensor3 :=
  let x_in := x
  let v : Vec := fun ch => (∑ i ∈ Finset.range h, ∑ j ∈ Finset.range w, x ch i j) / (h * w : ℚ)
  let v := if qn then vmap ttrunc v else v
  let v := linearFwd c p.lin1 v
  let v := if qn then vmap (fun t => rescale_down t QUANTIZE_FACTOR) v else v
  let v := vmap relu v
  let v := linearFwd cmid p.lin2 v
  let v := if qn then vmap (fun t => rescale_down t QUANTIZE_FACTOR) v else v
  let scale : Vec := fun ch => v ch
  let shift : Vec := fun ch => v (ch + (c : ℤ))
  if qn then
    fun ch i j =>
      ttrunc (cursed_sigmoid sigmoidf QUANTIZE_FACTOR (scale ch) * x_in ch i j / QUANTIZE_FACTOR)
        + shift ch
  else fun ch i j => sigmoidf (scale ch) * x_in ch i j + shift ch

/-- Parameters of a `ResidualBlock` (both convs are bias-free in the source). -/
structure ResidualBlockParams where
  conv1 : ℤ → ℤ → ℤ → ℤ → ℚ
  bn1 : BatchNormParams
  conv2 : ℤ → ℤ → ℤ → ℤ → ℚ
  bn2 : BatchNormParams
  se : SEParams

/-- model.py lines 321-375, `ResidualBlock.forward`. -/
def ResidualBlock.forward (qn : Bool) (sqrtf sigmoidf : ℚ → ℚ) (c cmid h w : ℕ)
    (p : ResidualBlockParams) (x : Tensor3) : Tensor3 :=
  let x_in := x
  let x := conv2d c 3 1 h w { weight := p.conv1, bias := fun _ => 0 } x
  let x := if qn then tmap (fun v => rescale_down v QUANTIZE_FACTOR) x else x
  let x := if qn then cursed_batchnormQ sqrtf p.bn1 x else batchnorm2d sqrtf p.bn1 x
  let x := tmap relu x
  let x := conv2d c 3 1 h w { weight := p.conv2, bias := fun _ => 0 } x
  let x := if qn then tmap (fun v => rescale_down v QUANTIZE_FACTOR) x else x
  let x := if qn then cursed_batchnormQ sqrtf p.bn2 x else batchnorm2d sqrtf p.bn2 x
  let x := SqueezeExcitation.forward qn sigmoidf c cmid h w p.se x
  tmap relu (fun ch i j => x ch i j + x_in ch i j)

/-- Parameters of a `PolicyHead`; `policyMap` is the external static
`lc0_az_policy_map` gather table. -/
structure PolicyHeadParams where
  conv_block : ConvBlockParams
  conv : Conv2dParams
  policyMap : ℤ → ℤ

/-- model.py lines 243-260, `PolicyHead.forward`: conv block, plain conv,
then — when quantized — `torch.round(x / QUANTIZE_FACTOR)` (line 251),
then flatten and gather. -/
def PolicyHead.forward (qn : Bool) (sqrtf : ℚ → ℚ) (cin pc h w : ℕ)
    (p : PolicyHeadParams) (x : Tensor3) : Vec :=
  let x := ConvBlock.forward qn sqrtf cin 3 1 h w p.conv_block x
  let x := conv2d pc 3 1 h w p.conv x
  let x := if qn then tmap (fun v => rround (v / QUANTIZE_FACTOR)) x else x
  let flat := flattenFwd h w x
  fun o => flat (p.policyMap o)

/-- Parameters of a `PolicyHeadClassical`. -/
structure PolicyHeadClassicalParams where
  conv_block : ConvBlockParams
  lin : LinearParams

/-- model.py lines 262-274, `PolicyHeadClassical.forward`: a plain
`nn.Sequential` of conv block (kernel 1), flatten and a linear layer. -/
def PolicyHeadClassical.forward (qn : Bool) (sqrtf : ℚ → ℚ) (cin pc h w : ℕ)
    (p : PolicyHeadClassicalParams) (x : Tensor3) : Vec :=
  linearFwd (pc * h * w) p.lin
    (flattenFwd h w (ConvBlock.forward qn sqrtf cin 1 0 h w p.conv_block x))

/-- Parameters of a value head (either width). -/
structure ValueHeadParams where
  conv_block : ConvBlockParams
  lin1 : LinearParams
  lin2 : LinearParams

/-- model.py lines 276-284, `ValueHead` (width-3 output): a plain
`nn.Sequential` — conv block (kernel 1), flatten, `lin1`, ReLU, `lin2` —
with no forward override, hence no truncation between its layers. -/
def ValueHead.forward (qn : Bool) (sqrtf : ℚ → ℚ) (cin vc h w lc : ℕ)
    (p : ValueHeadParams) (x : Tensor3) : Vec :=
  let x := ConvBlock.forward qn sqrtf cin 1 0 h w p.conv_block x
  let v := linearFwd (vc * h * w) p.lin1 (flattenFwd h w x)
  let v := vmap relu v
  linearFwd lc p.lin2 v

/-- model.py lines 286-318, `ValueHeadClassical.forward` (width-1 output):
truncate-divides by `Q` after both linear layers when quantized; the
`tanh` layer is never applied (lines 314-317 are commented out). -/
def ValueHeadClassical.forward (qn : Bool) (sqrtf : ℚ → ℚ) (cin vc h w lc : ℕ)
    (p : ValueHeadParams) (x : Tensor3) : Vec :=
  let x := ConvBlock.forward qn sqrtf cin 1 0 h w p.conv_block x
  let v := linearFwd (vc * h * w) p.lin1 (flattenFwd h w x)
  let v := if qn then vmap (fun t => ttrunc (t / QUANTIZE_FACTOR)) v else v
  let v := vmap relu v
  let v := linearFwd lc p.lin2 v
  if qn then vmap (fun t => ttrunc (t / QUANTIZE_FACTOR)) v else v

/-- All parameters of a `Net` (both policy-head variants are carried; the
`classicalPolicy` / `classical` flags of the constructor select which one
the forward pass uses). -/
structure NetParams where
  conv_block : ConvBlockParams
  blocks : List ResidualBlockParams
  policy : PolicyHeadParams
  policyClassical : PolicyHeadClassicalParams
  value : ValueHeadParams

/-- model.py lines 131-149, `Net.forward`: round-quantize the input (when
`QUANTIZE_NETWORKS`), run the conv block and the residual stack, fan out
into the policy and value heads, and divide both raw head outputs by `Q`
(ordinary division) when quantized. -/
def Net.forward (qn : Bool) (sqrtf sigmoidf : ℚ → ℚ)
    (cin channels cmid pc vc lc h w : ℕ) (classical classicalPolicy : Bool)
    (p : NetParams) (x : Tensor3) : Vec × Vec :=
  let x := if qn then tmap (fun v => rround (v * QUANTIZE_FACTOR)) x else x
  let x := ConvBlock.forward qn sqrtf cin 3 1 h w p.conv_block x
  let x := p.blocks.foldl
    (fun t bp => ResidualBlock.forward qn sqrtf sigmoidf channels cmid h w bp t) x
  let policy :=
    if classicalPolicy then
      PolicyHeadClassical.forward qn sqrtf channels pc h w p.policyClassical x
    else PolicyHead.forward qn sqrtf channels pc h w p.policy x
  let policy := if qn then vmap (fun t => t / QUANTIZE_FACTOR) policy else policy
  let value :=
    if classical then ValueHeadClassical.forward qn sqrtf channels vc h w lc p.value x
    else ValueHead.forward qn sqrtf channels vc h w lc p.value x
  let value := if qn then vmap (fun t => t / QUANTIZE_FACTOR) value else value
  (policy, value)

/-! ### Spec-side reference definitions (for the refinement claims)

These follow the wording of spec.md, independently of the code path's
branch structure. -/

/-- Spec §4.4 **ValueHead**: "ConvBlock → flatten → linear → truncate-divide
by `Q` → rectified-linear → linear → truncate-divide by `Q`" on the quantized
path.  The rescaling applied after each linear layer is abstracted as `step`
so that the claimed reading (`step = truncate-divide by Q`) and the behavior
the code actually has for the width-3 head (`step = id`) are both instances. -/
def specValueHead (step : ℚ → ℚ) (sqrtf : ℚ → ℚ) (cin vc h w lc : ℕ)
    (p : ValueHeadParams) (x : Tensor3) : Vec :=
  vmap step (linearFwd lc p.lin2 (vmap relu (vmap step
    (linearFwd (vc * h * w) p.lin1 (flattenFwd h w
      (ConvBlock.forward true sqrtf cin 1 0 h w p.conv_block x))))))

/-- Spec §4.4 **PolicyHead**: "ConvBlock → plain convolution →
truncate-divide by `Q` → flatten → gather", with the rescaling step after
the convolution abstracted as `step` (claimed: truncate-divide by `Q`;
actual code: round of the quotient). -/
def specPolicyHead (step : ℚ → ℚ) (sqrtf : ℚ → ℚ) (cin pc h w : ℕ)
    (p : PolicyHeadParams) (x : Tensor3) : Vec :=
  fun o =>
    flattenFwd h w (tmap step (conv2d pc 3 1 h w p.conv
      (ConvBlock.forward true sqrtf cin 3 1 h w p.conv_block x))) (p.policyMap o)

/-- Spec §4.4 ConvBlock on the floating-point path: convolution, standard
batch norm, ReLU. -/
def specFloatConvBlock (sqrtf : ℚ → ℚ) (cin k : ℕ) (pad : ℤ) (h w : ℕ)
    (p : ConvBlockParams) (x : Tensor3) : Tensor3 :=
  tmap relu (batchnorm2d sqrtf p.bn (conv2d cin k pad h w p.conv x))

/-- Spec §4.4 SqueezeExcitation on the floating-point path: global average
pool, two linear layers around a ReLU, then `sigmoid(scale) * x + shift`. -/
def specFloatSE (sigmoidf : ℚ → ℚ) (c cmid h w : ℕ) (p : SEParams) (x : Tensor3) : Tensor3 :=
  let pooled : Vec :=
    fun ch => (∑ i ∈ Finset.range h, ∑ j ∈ Finset.range w, x ch i j) / (h * w : ℚ)
  let v := linearFwd cmid p.lin2 (vmap relu (linearFwd c p.lin1 pooled))
  fun ch i j => sigmoidf (v ch) * x ch i j + v (ch + (c : ℤ))

/-- Spec §4.4 ResidualBlock on the floating-point path. -/
def specFloatResidualBlock (sqrtf sigmoidf : ℚ → ℚ) (c cmid h w : ℕ)
    (p : ResidualBlockParams) (x : Tensor3) : Tensor3 :=
  let y := specFloatSE sigmoidf c cmid h w p.se
    (batchnorm2d sqrtf p.bn2 (conv2d c 3 1 h w { weight := p.conv2, bias := fun _ => 0 }
      (tmap relu (batchnorm2d sqrtf p.bn1
        (conv2d c 3 1 h w { weight := p.conv1, bias := fun _ => 0 } x)))))
  tmap relu (fun ch i j => y ch i j + x ch i j)

/-- The floating-point reference forward pass of the identical topology
(spec §4.5, §8), as the code actually realizes it with quantization off: no
quantization, truncation or rounding anywhere, and no final `tanh` on the
classical value head. -/
def specFloatNet (sqrtf sigmoidf : ℚ → ℚ)
    (cin channels cmid pc vc lc h w : ℕ) (classical classicalPolicy : Bool)
    (p : NetParams) (x : Tensor3) : Vec × Vec :=
  let t := specFloatConvBlock sqrtf cin 3 1 h w p.conv_block x
  let t := p.blocks.foldl
    (fun acc bp => specFloatResidualBlock sqrtf sigmoidf channels cmid h w bp acc) t
  let policy :=
    if classicalPolicy then
      linearFwd (pc * h * w) p.policyClassical.lin
        (flattenFwd h w (specFloatConvBlock sqrtf channels 1 0 h w p.policyClassical.conv_block t))
    else
      fun o =>
        flattenFwd h w (conv2d pc 3 1 h w p.policy.conv
            (specFloatConvBlock sqrtf channels 3 1 h w p.policy.conv_block t))
          (p.policy.policyMap o)
  let value :=
    linearFwd lc p.value.lin2 (vmap relu (linearFwd (vc * h * w) p.value.lin1
      (flattenFwd h w (specFloatConvBlock sqrtf channels 1 0 h w p.value.conv_block t))))
  (policy, value)

/-! ### Parameter quantization (`Net.quantize_parameters`) -/

/-- The parameters of one `nn.Conv2d` or `nn.Linear` module as
`Net.quantize_parameters` sees them (a flat view of the weight tensor, plus
the optional bias — the residual-block convolutions have none). -/
structure ConvLinParams where
  weight : ℕ → ℚ
  bias : Option (ℕ → ℚ)

/-- The four per-channel statistics of one `nn.BatchNorm2d` module, as a
flat view. -/
structure BNStats where
  gamma : ℕ → ℚ
  beta : ℕ → ℚ
  mean : ℕ → ℚ
  var : ℕ → ℚ

/-- Every module `Net.named_modules` yields whose parameters
`Net.quantize_parameters` touches, in traversal order. -/
structure ModelParams where
  convlin : List ConvLinParams
  bns : List BNStats

/-- model.py lines 118-121: conv/linear weights are multiplied by
`QUANTIZE_FACTOR` and rounded; biases by `QUANTIZE_FACTOR ** 2`. -/
def quantizeConvLin (m : ConvLinParams) : ConvLinParams :=
  { weight := fun i => rround (m.weight i * QUANTIZE_FACTOR)
    bias := m.bias.map fun b => fun i => rround (b i * QUANTIZE_FACTOR ^ 2) }

/-- model.py lines 123-128: batch-norm weight, bias and running mean are
multiplied by `QUANTIZE_FACTOR` and rounded; the running variance by
`QUANTIZE_FACTOR ** 2`. -/
def quantizeBN (m : BNStats) : BNStats :=
  { gamma := fun i => rround (m.gamma i * QUANTIZE_FACTOR)
    beta := fun i => rround (m.beta i * QUANTIZE_FACTOR)
    mean := fun i => rround (m.mean i * QUANTIZE_FACTOR)
    var := fun i => rround (m.var i * QUANTIZE_FACTOR ^ 2) }

/-- model.py lines 115-129, `Net.quantize_parameters`. -/
def Net.quantize_parameters (p : ModelParams) : ModelParams :=
  { convlin := p.convlin.map quantizeConvLin
    bns := p.bns.map quantizeBN }

/-- Multiplying each parameter by its own quantization factor once more,
without any rounding. -/
def scaleConvLin (m : ConvLinParams) : ConvLinParams :=
  { weight := fun i => m.weight i * QUANTIZE_FACTOR
    bias := m.bias.map fun b => fun i => b i * QUANTIZE_FACTOR ^ 2 }

/-- Multiplying each batch-norm statistic by its own quantization factor
once more, without any rounding. -/
def scaleBN (m : BNStats) : BNStats :=
  { gamma := fun i => m.gamma i * QUANTIZE_FACTOR
    beta := fun i => m.beta i * QUANTIZE_FACTOR
    mean := fun i => m.mean i * QUANTIZE_FACTOR
    var := fun i => m.var i * QUANTIZE_FACTOR ^ 2 }

/-- The pure rescaling (no rounding) of every parameter by its own factor. -/
def scaleParams (p : ModelParams) : ModelParams :=
  { convlin := p.convlin.map scaleConvLin
    bns := p.bns.map scaleBN }

/-! ### Weight export / import (`Net.export_proto`, `Net.import_proto`) -/

/-- The ordered weight list produced by `extract_weights`: the initial conv
block's convolution weight (`weights[0]`, indexed `(out, in, kh, kw)`),
followed by all remaining tensors. -/
structure WeightList where
  w0 : ℤ → ℤ → ℤ → ℤ → ℚ
  rest : List (ℕ → ℚ)

/-- Modelled from the spec: the external protocol-buffer network format
(`badgyal_local/net.py` and `proto/net_pb2.py`, not under `src/`; spec §6:
"consumes an ordered sequence of parameter tensors from an external
network-format loader") — saving the ordered weight list and parsing it
back yields the same list. -/
def protoSaveLoad (w : WeightList) : WeightList := w

/-- Apply `f` to the input-channel-109 slice of a conv weight, leaving
every other channel unchanged. -/
def editChannel109 (f : ℚ → ℚ) (w : ℤ → ℤ → ℤ → ℤ → ℚ) : ℤ → ℤ → ℤ → ℤ → ℚ :=
  fun o c a b => if c = 109 then f (w o c a b) else w o c a b

/-- model.py lines 165-175, `Net.export_proto`:
`weights[0][:, 109, :, :] /= 99` before the list is handed to the proto
writer. -/
def Net.export_proto (w : WeightList) : WeightList :=
  protoSaveLoad { w0 := editChannel109 (fun v => v / 99) w.w0, rest := w.rest }

/-- model.py lines 177-188, `Net.import_proto`: read the list back from the
proto reader, then `self.conv_block[0].weight.data[:, 109, :, :] *= 99`. -/
def Net.import_proto (stored : WeightList) : WeightList :=
  let w := protoSaveLoad stored
  { w0 := editChannel109 (fun v => v * 99) w.w0, rest := w.rest }

/-! ### Claim C2 -/

/-- **C2** (confirmed): for every sigmoid primitive, every `quantize_factor`
argument and every quantized input `x`, `cursed_sigmoid` returns
`sigmoidf (round (x / Q)) * Q`; its value does not depend on the
piecewise-polynomial scaffolding (the `piecewise_bound` saturation branches
and `near_zero_sigmoid_approx`), nor on the `quantize_factor` argument that
only the scaffolding reads. -/
theorem cursed_sigmoid_bypasses_scaffolding :
    ∀ (sigmoidf : ℚ → ℚ) (qf x : ℚ),
      cursed_sigmoid sigmoidf qf x
          = sigmoidf (rround (x / QUANTIZE_FACTOR)) * QUANTIZE_FACTOR ∧
        cursed_sigmoid sigmoidf qf x = cursed_sigmoid sigmoidf QUANTIZE_FACTOR x := by
  intro sigmoidf qf x
  exact ⟨rfl, rfl⟩

/-! ### Claim C4 -/

/-- **C4** (confirmed): the pipeline's rescale-down primitive truncates the
quotient toward zero (`Int.tdiv`), not toward negative infinity; in
particular `rescale_down 5 4 = 1` and `rescale_down (-5) 4 = -1`, whereas
the floor of `-5/4` is `-2`. -/
theorem rescale_down_truncates_toward_zero :
    (∀ x d : ℤ, 0 < d → rescale_down (x : ℚ) (d : ℚ) = ((Int.tdiv x d : ℤ) : ℚ)) ∧
      rescale_down 5 4 = 1 ∧ rescale_down (-5) 4 = -1 ∧ (⌊(-5 : ℚ) / 4⌋ : ℚ) = -2 := by
  refine ⟨?_, by norm_num [rescale_down, ttrunc],
    by norm_num [rescale_down, ttrunc, Int.ceil_neg], by norm_num⟩
  intro x d hd
  obtain ⟨n, rfl⟩ : ∃ n : ℕ, d = (n : ℤ) := ⟨d.toNat, (Int.toNat_of_nonneg hd.le).symm⟩
  unfold rescale_down ttrunc
  have hcast : (((n : ℕ) : ℤ) : ℚ) = ((n : ℕ) : ℚ) := by push_cast; ring
  rw [hcast]
  rcases le_or_lt 0 x with hx | hx
  · rw [if_neg (not_lt.mpr (div_nonneg (by exact_mod_cast hx) (Nat.cast_nonneg n)))]
    rw [Rat.floor_intCast_div_natCast, Int.tdiv_eq_ediv hx (Int.natCast_nonneg n)]
  · have hq : (x : ℚ) / ((n : ℕ) : ℚ) < 0 :=
      div_neg_of_neg_of_pos (by exact_mod_cast hx) (by exact_mod_cast hd)
    rw [if_pos hq]
    have hneg : -((x : ℚ) / ((n : ℕ) : ℚ)) = ((-x : ℤ) : ℚ) / ((n : ℕ) : ℚ) := by
      push_cast
      ring
    have hceil : ⌈(x : ℚ) / ((n : ℕ) : ℚ)⌉ = -((-x) / (n : ℤ)) := by
      rw [← neg_neg ⌈(x : ℚ) / ((n : ℕ) : ℚ)⌉, ← Int.floor_neg, hneg,
        Rat.floor_intCast_div_natCast]
    rw [hceil, ← Int.tdiv_eq_ediv (by omega : (0 : ℤ) ≤ -x) (Int.natCast_nonneg n),
      Int.neg_tdiv, neg_neg]

/-- Witness for C4 at the concrete input `(5, 4)`. -/
theorem rescale_down_truncates_toward_zero_witness :
    0 < (4 : ℤ) ∧ rescale_down ((5 : ℤ) : ℚ) ((4 : ℤ) : ℚ) = ((Int.tdiv 5 4 : ℤ) : ℚ) :=
  ⟨by norm_num, rescale_down_truncates_toward_zero.1 5 4 (by norm_num)⟩

/-! ### Claim C3 -/

/-- **C3** (confirmed): for every input tensor and batch-norm statistics
with positive running variance, `cursed_batchnorm` returns — elementwise,
broadcasting per channel — `trunc(((x - mean) * coeff) / Q) + beta`, where
`coeff = round(gamma * Q) / sqrt(var)` is the per-channel coefficient and no
epsilon is added under the square root. -/
theorem cursed_batchnorm_formula :
    ∀ (bn : BatchNormParamsR) (x : ℤ → ℤ → ℤ → ℝ) (c i j : ℤ), 0 < bn.var c →
      cursed_batchnorm bn x c i j
        = truncR ((x c i j - bn.mean c)
            * (rroundR (bn.gamma c * (QUANTIZE_FACTOR : ℚ)) / Real.sqrt (bn.var c))
            / (QUANTIZE_FACTOR : ℚ)) + bn.beta c := by
  intro bn x c i j _
  rfl

/-- Concrete batch-norm statistics (`gamma = 1`, `beta = 0`, `mean = 0`,
`var = 1`) for the C3 witness. -/
def bnWit : BatchNormParamsR :=
  { gamma := fun _ => 1, beta := fun _ => 0, mean := fun _ => 0, var := fun _ => 1 }

/-- Concrete input tensor for the C3 witness. -/
noncomputable def xWit : ℤ → ℤ → ℤ → ℝ := fun _ _ _ => 3 / 2

/-- Witness for C3 at a concrete tensor and concrete statistics. -/
theorem cursed_batchnorm_formula_witness :
    0 < bnWit.var 0 ∧
      cursed_batchnorm bnWit xWit 0 0 0
        = truncR ((xWit 0 0 0 - bnWit.mean 0)
            * (rroundR (bnWit.gamma 0 * (QUANTIZE_FACTOR : ℚ)) / Real.sqrt (bnWit.var 0))
            / (QUANTIZE_FACTOR : ℚ)) + bnWit.beta 0 :=
  ⟨by norm_num [bnWit], cursed_batchnorm_formula bnWit xWit 0 0 0 (by norm_num [bnWit])⟩

/-! ### Claim C6 -/

/-- **C6** (refuted as stated): the per-channel coefficient is *not* in
general an integer — at `gamma = 1`, `var = 2` it equals `2^20 / √2`,
which is irrational (in particular not equal to any integer). -/
theorem bnCoeff_not_integer_counterexample :
    Irrational (bnCoeff 1 2) ∧ ¬∃ n : ℤ, bnCoeff 1 2 = (n : ℝ) := by
  have hq : (1 : ℝ) * ((QUANTIZE_FACTOR : ℚ) : ℝ) = ((1048576 : ℤ) : ℝ) := by
    norm_num [QUANTIZE_FACTOR]
  have h1 : bnCoeff 1 2 = ((1048576 : ℤ) : ℝ) / Real.sqrt 2 := by
    unfold bnCoeff
    rw [hq, rroundR_intCast]
  have h2 : ((1048576 : ℤ) : ℝ) / Real.sqrt 2 = ((524288 : ℤ) : ℝ) * Real.sqrt 2 := by
    have hs : Real.sqrt 2 ≠ 0 := by
      have := Real.sqrt_pos.mpr (by norm_num : (0 : ℝ) < 2)
      exact this.ne'
    rw [div_eq_iff hs, mul_assoc, Real.mul_self_sqrt (by norm_num : (0 : ℝ) ≤ 2)]
    norm_num
  have h3 : Irrational (bnCoeff 1 2) := by
    rw [h1, h2]
    exact irrational_sqrt_two.int_mul (by norm_num)
  refine ⟨h3, ?_⟩
  rintro ⟨n, hn⟩
  exact h3.ne_int n hn

/-- **C6** (amended): the coefficient is the integer `round(gamma * Q)`
divided by the real square root of the variance — an integer numerator over
`sqrt(var)`, not itself an integer in general. -/
theorem bnCoeff_integer_over_sqrt :
    ∀ gamma var : ℝ, ∃ n : ℤ, bnCoeff gamma var = (n : ℝ) / Real.sqrt var := by
  intro g v
  obtain ⟨n, hn⟩ := rroundR_isInt (g * ((QUANTIZE_FACTOR : ℚ) : ℝ))
  refine ⟨n, ?_⟩
  unfold bnCoeff
  rw [hn]

/-! ### Claim C8 -/

attribute [ext] WeightList

/-- **C8** (confirmed, with the proto writer/reader modelled from the spec
as preserving the ordered weight list): exporting and then importing
reproduces every weight tensor exactly; the `÷99` on export and the `×99`
on import of the first convolution's input-channel-109 slice are inverse, and
every other tensor passes through unchanged. -/
theorem export_import_roundtrip :
    ∀ w : WeightList, Net.import_proto (Net.export_proto w) = w := by
  intro w
  unfold Net.import_proto Net.export_proto protoSaveLoad editChannel109
  ext o c a b
  · dsimp only
    by_cases h : c = 109
    · rw [if_pos h, if_pos h, div_mul_cancel₀ _ (by norm_num : (99 : ℚ) ≠ 0)]
    · rw [if_neg h, if_neg h]
  · rfl

/-! ### Claims C9 and C10 -/

theorem rround_intMul_qf {q : ℚ} (h : ∃ n : ℤ, q = (n : ℚ)) :
    rround (q * QUANTIZE_FACTOR) = q * QUANTIZE_FACTOR := by
  obtain ⟨n, rfl⟩ := h
  have hc : (n : ℚ) * QUANTIZE_FACTOR = ((n * 1048576 : ℤ) : ℚ) := by
    push_cast [QUANTIZE_FACTOR]
    ring
  rw [hc, rround_intCast]

theorem rround_intMul_qf2 {q : ℚ} (h : ∃ n : ℤ, q = (n : ℚ)) :
    rround (q * QUANTIZE_FACTOR ^ 2) = q * QUANTIZE_FACTOR ^ 2 := by
  obtain ⟨n, rfl⟩ := h
  have hc : (n : ℚ) * QUANTIZE_FACTOR ^ 2 = ((n * 1099511627776 : ℤ) : ℚ) := by
    push_cast [QUANTIZE_FACTOR]
    ring
  rw [hc, rround_intCast]

theorem quantizeConvLin_twice (m : ConvLinParams) :
    quantizeConvLin (quantizeConvLin m) = scaleConvLin (quantizeConvLin m) := by
  unfold quantizeConvLin scaleConvLin
  cases m with
  | mk w b =>
    dsimp only
    congr 1
    · funext i
      exact rround_intMul_qf (rround_isInt _)
    · cases b with
      | none => rfl
      | some bf =>
        dsimp [Option.map]
        congr 1
        funext i
        exact rround_intMul_qf2 (rround_isInt _)

theorem quantizeBN_twice (m : BNStats) :
    quantizeBN (quantizeBN m) = scaleBN (quantizeBN m) := by
  unfold quantizeBN scaleBN
  cases m with
  | mk g be me va =>
    dsimp only
    congr 1
    all_goals funext i
    · exact rround_intMul_qf (rround_isInt _)
    · exact rround_intMul_qf (rround_isInt _)
    · exact rround_intMul_qf (rround_isInt _)
    · exact rround_intMul_qf2 (rround_isInt _)

/-- A one-module model whose single weight entry is 1, used to exhibit
non-idempotency. -/
def exampleModel : ModelParams :=
  { convlin := [{ weight := fun _ => 1, bias := none }], bns := [] }

/-- **C9** (confirmed): `quantize_parameters` is not idempotent — a second
call multiplies every already-integer parameter by its own scale factor
again (the rounding is the identity on the already-quantized values), so
conv/linear weights end up at scale `Q^2` instead of `Q`; in particular
applying it twice differs from applying it once. -/
theorem quantize_parameters_not_idempotent :
    (∀ p : ModelParams,
        Net.quantize_parameters (Net.quantize_parameters p)
          = scaleParams (Net.quantize_parameters p)) ∧
      Net.quantize_parameters (Net.quantize_parameters exampleModel)
        ≠ Net.quantize_parameters exampleModel := by
  constructor
  · intro p
    unfold Net.quantize_parameters scaleParams
    dsimp only
    congr 1
    · rw [List.map_map, List.map_map]
      exact List.map_congr_left fun m _ => quantizeConvLin_twice m
    · rw [List.map_map, List.map_map]
      exact List.map_congr_left fun m _ => quantizeBN_twice m
  · intro h
    have h1 : (Net.quantize_parameters (Net.quantize_parameters exampleModel)).convlin
        = (Net.quantize_parameters exampleModel).convlin := congrArg ModelParams.convlin h
    have h2 : quantizeConvLin (quantizeConvLin { weight := fun _ => (1 : ℚ), bias := none })
        = quantizeConvLin { weight := fun _ => (1 : ℚ), bias := none } := by
      have := h1
      simp only [Net.quantize_parameters, exampleModel, List.map] at this
      exact List.head_eq_of_cons_eq this
    have h3 := congrArg (fun m => m.weight 0) h2
    have e1 : rround ((1 : ℚ) * QUANTIZE_FACTOR) = 1048576 := by
      norm_num [rround, QUANTIZE_FACTOR]
    simp only [quantizeConvLin] at h3
    rw [e1] at h3
    have e2 : rround ((1048576 : ℚ) * QUANTIZE_FACTOR) = 1099511627776 := by
      norm_num [rround, QUANTIZE_FACTOR]
    rw [e2] at h3
    norm_num at h3

/-- **C10** (confirmed): after a single call each conv/linear weight and
each batch-norm gamma, beta and running mean is the original value times
`Q`, rounded, while each conv/linear bias and each batch-norm running
variance is the original value times `Q^2`, rounded; the whole pass maps
each traversed module through exactly these per-module transforms. -/
theorem quantize_parameters_single_call_scaling :
    (∀ (p : ModelParams) (i : ℕ),
        (Net.quantize_parameters p).convlin.get? i
            = (p.convlin.get? i).map quantizeConvLin ∧
          (Net.quantize_parameters p).bns.get? i = (p.bns.get? i).map quantizeBN) ∧
      (∀ (m : ConvLinParams) (j : ℕ),
        (quantizeConvLin m).weight j = rround (m.weight j * QUANTIZE_FACTOR)) ∧
      (∀ (m : ConvLinParams) (b : ℕ → ℚ), m.bias = some b →
        (quantizeConvLin m).bias = some fun j => rround (b j * QUANTIZE_FACTOR ^ 2)) ∧
      (∀ (m : BNStats) (j : ℕ),
        (quantizeBN m).gamma j = rround (m.gamma j * QUANTIZE_FACTOR) ∧
          (quantizeBN m).beta j = rround (m.beta j * QUANTIZE_FACTOR) ∧
          (quantizeBN m).mean j = rround (m.mean j * QUANTIZE_FACTOR) ∧
          (quantizeBN m).var j = rround (m.var j * QUANTIZE_FACTOR ^ 2)) := by
  refine ⟨fun p i => ⟨?_, ?_⟩, fun m j => rfl, fun m b hb => ?_, fun m j => ⟨rfl, rfl, rfl, rfl⟩⟩
  · exact List.get?_map quantizeConvLin p.convlin i
  · exact List.get?_map quantizeBN p.bns i
  · simp only [quantizeConvLin, hb, Option.map]

/-- Concrete module for the C10 witness (weight 1, bias present). -/
def mWit : ConvLinParams := { weight := fun _ => 1, bias := some fun _ => 1 }

/-- Witness for C10: the bias clause applied at a concrete module. -/
theorem quantize_parameters_single_call_scaling_witness :
    mWit.bias = some (fun _ => (1 : ℚ)) ∧
      (quantizeConvLin mWit).bias
        = some fun j => rround ((fun _ : ℕ => (1 : ℚ)) j * QUANTIZE_FACTOR ^ 2) :=
  ⟨rfl, quantize_parameters_single_call_scaling.2.2.1 mWit (fun _ => 1) rfl⟩

/-! ### Claim C1 -/

/-- **C1** (amended): on the quantized path the truncate-divide-by-`Q`
steps around the ReLU are applied by the width-1 (classical) value head
exactly as the spec formula describes, while the width-3 `ValueHead` — a
plain `nn.Sequential` — applies the same layer sequence with *no*
rescaling step (`step = id`). -/
theorem value_heads_trunc_steps :
    ∀ (sqrtf : ℚ → ℚ) (cin vc h w lc : ℕ) (p : ValueHeadParams) (x : Tensor3),
      ValueHeadClassical.forward true sqrtf cin vc h w lc p x
          = specValueHead (fun v => rescale_down v QUANTIZE_FACTOR) sqrtf cin vc h w lc p x ∧
        ValueHead.forward true sqrtf cin vc h w lc p x
          = specValueHead id sqrtf cin vc h w lc p x := by
  intro sqrtf cin vc h w lc p x
  exact ⟨rfl, rfl⟩

/-- Numeric value of the quantization scale. -/
theorem QF_eq : QUANTIZE_FACTOR = 1048576 := by norm_num [QUANTIZE_FACTOR]

theorem vmap_apply (f : ℚ → ℚ) (v : Vec) (i : ℤ) : vmap f v i = f (v i) := rfl

theorem tmap_apply (f : ℚ → ℚ) (x : Tensor3) (c i j : ℤ) : tmap f x c i j = f (x c i j) := rfl

/-- A square-root primitive that agrees with the exact square root at the
only variance value (`1`) the concrete counterexample configurations feed
it (their `gamma = 0` additionally makes the batch-norm coefficient zero,
so those runs do not depend on this function at all). -/
def sqrtfOne : ℚ → ℚ := fun _ => 1

/-- All-zero input feature map. -/
def xZero : Tensor3 := fun _ _ _ => 0

/-- Conv block parameters with `gamma = 0`, `beta = 5`, `var = 1`: on both
paths the block outputs the constant 5. -/
def cbWitC1 : ConvBlockParams :=
  { conv := { weight := fun _ _ _ _ => 1, bias := fun _ => 0 }
    bn := { gamma := fun _ => 0, beta := fun _ => 5, mean := fun _ => 0, var := fun _ => 1 } }

/-- Value-head parameters (1 channel, 1×1 spatial, identity linear layers). -/
def vhWitC1 : ValueHeadParams :=
  { conv_block := cbWitC1
    lin1 := { weight := fun _ _ => 1, bias := fun _ => 0 }
    lin2 := { weight := fun _ _ => 1, bias := fun _ => 0 } }

theorem eval_rd5 : rescale_down 5 QUANTIZE_FACTOR = 0 := by
  rw [rescale_down, QF_eq]
  norm_num [ttrunc]

theorem eval_rd0 : rescale_down 0 QUANTIZE_FACTOR = 0 := by
  rw [rescale_down, QF_eq]
  norm_num [ttrunc]

theorem eval_rdC5 : rescale_down 1835008 QUANTIZE_FACTOR = 1 := by
  rw [rescale_down, QF_eq]
  norm_num [ttrunc]

theorem eval_rroundC5 : rround (1835008 / QUANTIZE_FACTOR) = 2 := by
  rw [QF_eq]
  have h : ⌊(1835008 : ℚ) / 1048576⌋ = 1 := by norm_num
  unfold rround
  rw [h]
  norm_num

/-- On the quantized path the C1/C7 conv block outputs the constant 5. -/
theorem cbWitC1_const_quant :
    ConvBlock.forward true sqrtfOne 1 1 0 1 1 cbWitC1 xZero = fun _ _ _ => 5 := by
  funext c i j
  simp only [ConvBlock.forward, conv2d, pad0, cursed_batchnormQ, rescale_down,
    tmap, relu, sqrtfOne, cbWitC1, xZero, QF_eq, if_true]
  norm_num [ttrunc, rround]

/-- The identity 1-input linear layer maps the flattened constant-5 map to
the constant-5 vector. -/
theorem lin1WitC1_val :
    linearFwd (1 * 1 * 1) { weight := fun _ _ => 1, bias := fun _ => 0 }
      (flattenFwd 1 1 fun _ _ _ => (5 : ℚ)) = fun _ => 5 := by
  funext o
  simp only [linearFwd, flattenFwd]
  norm_num

/-- Truncate-dividing the constant-5 vector by `Q` yields zero. -/
theorem stepWitC1_val :
    vmap (fun v => rescale_down v QUANTIZE_FACTOR) (fun _ => (5 : ℚ)) = fun _ => 0 := by
  funext o
  rw [vmap_apply]
  exact eval_rd5

theorem vmapRelu0 : vmap relu (fun _ => (0 : ℚ)) = fun _ => 0 := by
  funext o
  rw [vmap_apply]
  norm_num [relu]

theorem lin2WitC1_zero :
    linearFwd 1 { weight := fun _ _ => 1, bias := fun _ => 0 } (fun _ => (0 : ℚ)) = fun _ => 0 := by
  funext o
  simp only [linearFwd]
  norm_num

/-- **C1** (counterexample): at this concrete configuration the width-3
value head outputs 5, while the spec formula — with its two
truncate-divides by `Q` — yields 0: the truncate-divide steps are *not*
applied in the width-3 configuration. -/
theorem valueHead3_no_trunc_div_counterexample :
    ValueHead.forward true sqrtfOne 1 1 1 1 1 vhWitC1 xZero 0 = 5 ∧
      specValueHead (fun v => rescale_down v QUANTIZE_FACTOR)
        sqrtfOne 1 1 1 1 1 vhWitC1 xZero 0 = 0 := by
  constructor
  · rw [ValueHead.forward]
    simp only [vhWitC1]
    rw [cbWitC1_const_quant]
    simp only [linearFwd, flattenFwd, vmap, relu]
    norm_num
  · rw [specValueHead]
    simp only [vhWitC1]
    rw [cbWitC1_const_quant, lin1WitC1_val, stepWitC1_val, vmapRelu0, lin2WitC1_zero]
    rw [vmap_apply]
    exact eval_rd0

/-! ### Claim C5 -/

/-- **C5** (amended): when quantized, the policy head applies
`torch.round(x / Q)` — a round of the quotient, not a truncation toward
zero — to its plain convolution's output before flattening and gathering. -/
theorem policy_head_round_div :
    ∀ (sqrtf : ℚ → ℚ) (cin pc h w : ℕ) (p : PolicyHeadParams) (x : Tensor3),
      PolicyHead.forward true sqrtf cin pc h w p x
        = specPolicyHead (fun v => rround (v / QUANTIZE_FACTOR)) sqrtf cin pc h w p x := by
  intro sqrtf cin pc h w p x
  rfl

/-- Policy-head conv block with `gamma = 0`, `beta = 2`: outputs the
constant 2 on the quantized path. -/
def cbWitC5 : ConvBlockParams :=
  { conv := { weight := fun _ _ a b => if a = 1 ∧ b = 1 then 1 else 0, bias := fun _ => 0 }
    bn := { gamma := fun _ => 0, beta := fun _ => 2, mean := fun _ => 0, var := fun _ => 1 } }

/-- Policy-head parameters: the second convolution has zero weights and
bias `7·Q/4 = 1835008`, and the gather map is the identity. -/
def phWitC5 : PolicyHeadParams :=
  { conv_block := cbWitC5
    conv := { weight := fun _ _ _ _ => 0, bias := fun _ => 1835008 }
    policyMap := fun o => o }

theorem cbWitC5_const_quant :
    ConvBlock.forward true sqrtfOne 1 3 1 1 1 cbWitC5 xZero = fun _ _ _ => 2 := by
  funext c i j
  simp only [ConvBlock.forward, conv2d, pad0, cursed_batchnormQ, rescale_down,
    tmap, relu, sqrtfOne, cbWitC5, xZero, QF_eq, if_true, ite_self,
    Finset.sum_range_succ, Finset.sum_range_zero]
  norm_num [ttrunc, rround]

theorem convWitC5_val :
    conv2d 1 3 1 1 1 { weight := fun _ _ _ _ => 0, bias := fun _ => 1835008 }
      (fun _ _ _ => (2 : ℚ)) = fun _ _ _ => 1835008 := by
  funext c i j
  simp only [conv2d, pad0, Finset.sum_range_succ, Finset.sum_range_zero]
  norm_num

/-- **C5** (counterexample): the quotient fed to the rescaling step is
`7/4`; the code rounds it to 2, while the claimed truncate-divide gives 1. -/
theorem policy_head_round_not_trunc_counterexample :
    PolicyHead.forward true sqrtfOne 1 1 1 1 phWitC5 xZero 0 = 2 ∧
      specPolicyHead (fun v => rescale_down v QUANTIZE_FACTOR)
        sqrtfOne 1 1 1 1 phWitC5 xZero 0 = 1 := by
  constructor
  · rw [PolicyHead.forward]
    simp only [phWitC5]
    rw [cbWitC5_const_quant, convWitC5_val]
    simp only [if_true, flattenFwd, tmap_apply]
    exact eval_rroundC5
  · rw [specPolicyHead]
    simp only [phWitC5]
    rw [cbWitC5_const_quant, convWitC5_val]
    simp only [if_true, flattenFwd, tmap_apply]
    exact eval_rdC5

/-! ### Claim C7 -/

/-- **C7** (amended): with the quantization toggle off the forward pass
performs no truncation or rounding at all and equals the floating-point
reference of the identical topology *without* the classical value head's
final `tanh` (which the code never applies), for every head configuration. -/
theorem forward_unquantized_matches_float_reference :
    ∀ (sqrtf sigmoidf : ℚ → ℚ) (cin channels cmid pc vc lc h w : ℕ)
      (classical classicalPolicy : Bool) (p : NetParams) (x : Tensor3),
      Net.forward false sqrtf sigmoidf cin channels cmid pc vc lc h w
          classical classicalPolicy p x
        = specFloatNet sqrtf sigmoidf cin channels cmid pc vc lc h w
            classical classicalPolicy p x := by
  intro sqrtf sigmoidf cin channels cmid pc vc lc h w classical classicalPolicy p x
  cases classical <;> rfl

/-- The numeric range every tanh-final reference output lies in
(`tanh` maps the reals into `[-1, 1]`, floating-point tolerance included). -/
def withinTanhRange (q : ℚ) : Prop := -1 ≤ q ∧ q ≤ 1

/-- **C7** (counterexample): with quantization disabled, the classical
value head outputs 5 at this concrete configuration — a value no
implementation of the spec's topology whose classical value head ends in
`tanh` can produce (all such outputs lie in `[-1, 1]`), so the toggle-off
pass is not bit-identical (nor within tolerance) to the claimed
tanh-including reference. -/
theorem classical_value_head_no_tanh_counterexample :
    ValueHeadClassical.forward false sqrtfOne 1 1 1 1 1 vhWitC1 xZero 0 = 5 ∧
      ¬ withinTanhRange (ValueHeadClassical.forward false sqrtfOne 1 1 1 1 1 vhWitC1 xZero 0) := by
  have h5 : ValueHeadClassical.forward false sqrtfOne 1 1 1 1 1 vhWitC1 xZero 0 = 5 := by
    norm_num [ValueHeadClassical.forward, ConvBlock.forward, conv2d, pad0, batchnorm2d,
      linearFwd, flattenFwd, vmap, tmap, relu,
      sqrtfOne, cbWitC1, vhWitC1, xZero, Finset.sum_range_succ, BN_EPS]
  refine ⟨h5, ?_⟩
  rw [h5]
  norm_num [withinTanhRange]
